import Mathlib

/-!
Shallow embedding of pyolib/opensndctrl.py (pyo OSC control objects).

Python-level state of each class is a structure holding its `self._*` fields.
Mutating methods return `Except PyErr (State × List String)`: the `List String`
collects console reports (`print` statements in the source) and `PyErr` models
an uncaught Python exception escaping the call (fatal to the caller).
C-level `_base` objects (OscReceiver_base etc.) are not under src/; where their
behaviour matters it is modelled from the spec and marked as such.
-/

/-- A Python runtime value, as far as this module inspects values:
integers, strings, an abstract float (tagged to keep distinct floats distinct,
no float arithmetic is performed by this module), lists, and callables. -/
inductive PyArg where
  | intVal : Int → PyArg
  | strVal : String → PyArg
  | floatVal : Nat → PyArg
  | listVal : List PyArg → PyArg
  | funcVal : Nat → PyArg

/-- `type(x) == IntType` test of the source. -/
def PyArg.isInt : PyArg → Bool
  | .intVal _ => true
  | _ => false

/-- `callable(x)` test of the source. -/
def PyArg.isCallable : PyArg → Bool
  | .funcVal _ => true
  | _ => false

/-- `type(x) == ListType` test of the source. -/
def PyArg.isList : PyArg → Bool
  | .listVal _ => true
  | _ => false

/-- The integer payload, defaulting to 0 (used only under an `isInt` guard). -/
def PyArg.toIntD : PyArg → Int
  | .intVal n => n
  | _ => 0

/-- Python exceptions that the embedded code can raise uncaught. -/
inductive PyErr where
  | valueError : PyErr
  | keyError : String → PyErr
  | indexError : PyErr
  | zeroDivisionError : PyErr
  | typeError : String → PyErr
deriving DecidableEq, Repr

/-- Modelled from the spec: the argument-broadcasting glue `wrap(l, i)` from the
repository module `_core` (not under src/) returns `l[i % len(l)]`; on an empty
list the modulo raises ZeroDivisionError, modelled as `none`. -/
def wrapD (l : List α) (i : Nat) : Option α :=
  if l.length = 0 then none else l.get? (i % l.length)

/-- `list.pop(i)`: returns the removed element and the remaining list, or
IndexError when `i` is out of range. -/
def popAt (l : List α) (i : Nat) : Except PyErr (α × List α) :=
  match l.get? i with
  | some x => Except.ok (x, l.eraseIdx i)
  | none => Except.error PyErr.indexError

/-- `len(x)` on a Python value: defined for lists and strings only. -/
def pyLen : PyArg → Except PyErr Int
  | .listVal l => Except.ok l.length
  | .strVal s => Except.ok s.length
  | _ => Except.error (PyErr.typeError "object has no len")

/-- An index passed to `__getitem__`: an address string or an ordinal. -/
inductive PyIndex where
  | str : String → PyIndex
  | nat : Nat → PyIndex

/-! ## OscReceive -/

/-- One `OscReceive_base` audio stream: bound address, mul/add factors, and the
current stream value (the slot content it renders, held here since the C-level
receiver is not under src/). -/
structure RecvStream where
  addr : String
  mul : PyArg
  strAdd : PyArg
  value : PyArg

def mkRecvStream (a : String) (m ad : PyArg) : RecvStream :=
  { addr := a, mul := m, strAdd := ad, value := PyArg.intVal 0 }

/-- Python-level state of an `OscReceive` object: `self._address` and
`self._base_objs`. -/
structure OscReceive where
  address : List String
  base_objs : List RecvStream

/-- `OscReceive.__init__`: rejects a non-integer port (stderr report + `exit()`,
modelled as a fatal error carrying the report), otherwise builds one stream per
broadcast position. -/
def OscReceive.init (port : PyArg) (address : List String) (mul addl : List PyArg) :
    Except PyErr OscReceive :=
  if port.isInt then
    let lmax := max address.length (max mul.length addl.length)
    match (List.range lmax).mapM (fun i =>
        match wrapD address i, wrapD mul i, wrapD addl i with
        | some a, some m, some ad => some (mkRecvStream a m ad)
        | _, _, _ => none) with
    | some objs => Except.ok { address := address, base_objs := objs }
    | none => Except.error PyErr.zeroDivisionError
  else Except.error (PyErr.typeError "port argument of OscReceive must be an integer")

/-- `OscReceive.__getitem__`: a string key is looked up with `list.index`
(ValueError when absent) and indexes `_base_objs`; an ordinal below
`len(_base_objs)` returns that stream; otherwise the source prints and falls
off the end, returning `None`. -/
def OscReceive.getitem (s : OscReceive) (i : PyIndex) :
    Except PyErr (Option RecvStream × List String) :=
  match i with
  | .str a =>
    if a ∈ s.address then
      match s.base_objs.get? (s.address.indexOf a) with
      | some o => Except.ok (some o, [])
      | none => Except.error PyErr.indexError
    else Except.error PyErr.valueError
  | .nat n =>
    if h : n < s.base_objs.length then Except.ok (some (s.base_objs.get ⟨n, h⟩), [])
    else Except.ok (none, ["i too large"])

/-- `OscReceive.getAddresses`. -/
def OscReceive.getAddresses (s : OscReceive) : List String :=
  s.address

/-- `OscReceive.addAddress`: for each path not already registered, appends the
path and a fresh stream; already-registered paths are skipped silently. -/
def OscReceive.addAddress (s : OscReceive) (path : List String) (mul addl : List PyArg) :
    Except PyErr (OscReceive × List String) :=
  (path.enum.foldlM (fun st ip =>
    if ip.2 ∈ st.address then Except.ok st
    else
      match wrapD mul ip.1, wrapD addl ip.1 with
      | some m, some ad =>
          Except.ok { st with address := st.address ++ [ip.2],
                              base_objs := st.base_objs ++ [mkRecvStream ip.2 m ad] }
      | _, _ => Except.error PyErr.zeroDivisionError) s).map (fun st => (st, []))

/-- `OscReceive.delAddress`: computes `[self._address.index(p) for p in path]`
(ValueError on the first unknown path, before any Python-level mutation), then
pops each index, in reverse, from `_address` and `_base_objs`. The preceding
C-level `_mainReceiver.delAddress(path)` is not under src/; modelled from the
spec as touching only C-level slot state. -/
def OscReceive.delAddress (s : OscReceive) (path : List String) :
    Except PyErr (OscReceive × List String) := do
  let indexes ← path.mapM (fun p =>
    if p ∈ s.address then Except.ok (s.address.indexOf p) else Except.error PyErr.valueError)
  let st ← indexes.reverse.foldlM (fun st ind => do
    let r1 ← popAt st.address ind
    let r2 ← popAt st.base_objs ind
    Except.ok ({ address := r1.2, base_objs := r2.2 } : OscReceive)) s
  Except.ok (st, [])

/-- Modelled from the spec: the C-level `OscReceiver_base.setValue` write has
identical semantics to a network arrival, overwriting the slot of that address;
visible here as the bound stream taking the value. -/
def OscReceive.mainSetValue (s : OscReceive) (p : String) (v : PyArg) : OscReceive :=
  { s with base_objs := s.base_objs.map (fun o =>
      if o.addr = p then { o with value := v } else o) }

/-- `OscReceive.setValue`: broadcasts over `max` of the two list lengths; a
registered path receives its wrapped value, an unknown path prints an error and
the loop continues. -/
def OscReceive.setValue (s : OscReceive) (path : List String) (value : List PyArg) :
    Except PyErr (OscReceive × List String) :=
  (List.range (max path.length value.length)).foldlM (fun acc i =>
    match wrapD path i with
    | none => Except.error PyErr.zeroDivisionError
    | some p =>
      if p ∈ acc.1.address then
        match wrapD value i with
        | some v => Except.ok (acc.1.mainSetValue p v, acc.2)
        | none => Except.error PyErr.zeroDivisionError
      else Except.ok (acc.1, acc.2 ++ ["Error: OscReceive.setValue, Illegal address " ++ p]))
    (s, [])

/-! ## OscListReceive -/

/-- One `OscListReceive_base` stream: bound address, channel offset within the
width-`num` window, mul/add, and the current stream value. -/
structure ListRecvStream where
  addr : String
  chan : Nat
  mul : PyArg
  strAdd : PyArg
  value : PyArg

def mkListStream (a : String) (j : Nat) (m ad : PyArg) : ListRecvStream :=
  { addr := a, chan := j, mul := m, strAdd := ad, value := PyArg.intVal 0 }

/-- Python-level state of an `OscListReceive` object: `self._num`,
`self._address`, `self._base_objs`. -/
structure OscListReceive where
  num : Int
  address : List String
  base_objs : List ListRecvStream

/-- `OscListReceive.__init__`: rejects a non-integer port, then a non-integer
num (stderr report + `exit()`, modelled as a fatal error carrying the report),
otherwise builds `num` streams per broadcast position. -/
def OscListReceive.init (port : PyArg) (address : List String) (numArg : PyArg)
    (mul addl : List PyArg) : Except PyErr OscListReceive :=
  if port.isInt then
    if numArg.isInt then
      let n := numArg.toIntD
      let lmax := max address.length (max mul.length addl.length)
      match (List.range lmax).mapM (fun i =>
          match wrapD address i, wrapD mul i, wrapD addl i with
          | some a, some m, some ad =>
              some ((List.range n.toNat).map (fun j => mkListStream a j m ad))
          | _, _, _ => none) with
      | some blocks =>
          Except.ok { num := n, address := address, base_objs := blocks.flatten }
      | none => Except.error PyErr.zeroDivisionError
    else Except.error (PyErr.typeError "num argument of OscListReceive must be an integer")
  else Except.error (PyErr.typeError "port argument of OscListReceive must be an integer")

/-- `OscListReceive.__getitem__`: a string key yields the slice
`_base_objs[index*num : index*num+num]` (ValueError on an unknown string); an
ordinal `n` is accepted whenever `n < len(_base_objs)` and yields the slice
starting at `n*num`; larger ordinals print and return `None`. -/
def OscListReceive.getitem (s : OscListReceive) (i : PyIndex) :
    Except PyErr (Option (List ListRecvStream) × List String) :=
  match i with
  | .str a =>
    if a ∈ s.address then
      let first := s.address.indexOf a * s.num.toNat
      Except.ok (some ((s.base_objs.drop first).take s.num.toNat), [])
    else Except.error PyErr.valueError
  | .nat n =>
    if n < s.base_objs.length then
      let first := n * s.num.toNat
      Except.ok (some ((s.base_objs.drop first).take s.num.toNat), [])
    else Except.ok (none, ["i too large"])

/-- `OscListReceive.getAddresses`. -/
def OscListReceive.getAddresses (s : OscListReceive) : List String :=
  s.address

/-- `OscListReceive.addAddress`: for each path not already registered, appends
the path and a block of `num` fresh streams; registered paths are skipped
silently. -/
def OscListReceive.addAddress (s : OscListReceive) (path : List String)
    (mul addl : List PyArg) : Except PyErr (OscListReceive × List String) :=
  (path.enum.foldlM (fun st ip =>
    if ip.2 ∈ st.address then Except.ok st
    else
      match wrapD mul ip.1, wrapD addl ip.1 with
      | some m, some ad =>
          Except.ok { st with address := st.address ++ [ip.2],
                              base_objs := st.base_objs ++
                                (List.range st.num.toNat).map (fun j => mkListStream ip.2 j m ad) }
      | _, _ => Except.error PyErr.zeroDivisionError) s).map (fun st => (st, []))

/-- `OscListReceive.delAddress`: computes all indexes first (ValueError on the
first unknown path, before any Python-level mutation), then for each index, in
reverse, pops the address and pops the stream block `first+num-1 … first`.
The preceding C-level `_mainReceiver.delAddress(path)` is modelled from the
spec as touching only C-level slot state. -/
def OscListReceive.delAddress (s : OscListReceive) (path : List String) :
    Except PyErr (OscListReceive × List String) := do
  let indexes ← path.mapM (fun p =>
    if p ∈ s.address then Except.ok (s.address.indexOf p) else Except.error PyErr.valueError)
  let st ← indexes.reverse.foldlM (fun st ind => do
    let r1 ← popAt st.address ind
    let first := ind * st.num.toNat
    let objs ← (List.range st.num.toNat).foldlM (fun objs j =>
        (popAt objs (first + (st.num.toNat - 1 - j))).map Prod.snd) st.base_objs
    Except.ok { st with address := r1.2, base_objs := objs }) s
  Except.ok (st, [])

/-- Modelled from the spec: the C-level `OscListReceiver_base.setValue` routes
the width-`num` value list to the `num` streams bound to that address
(identical semantics to a network arrival); stream `j` takes element `j`. -/
def OscListReceive.mainSetValue (s : OscListReceive) (p : String) (val : List PyArg) :
    OscListReceive :=
  { s with base_objs := s.base_objs.map (fun o =>
      if o.addr = p then { o with value := (val.get? o.chan).getD o.value } else o) }

/-- `OscListReceive.setValue`: for each wrapped path, an unknown path prints an
error and continues; for a known path the source reads `value[0]` (IndexError
on an empty list), selects `wrap(value, i)` when that first element is itself a
list and the whole `value` otherwise, and forwards it to the C receiver only
when its length equals `num`, printing an arity error otherwise. A non-list
`value` raises on the subscript; a string `val` reaching the C call is outside
the float-list interface (modelled from the spec as a TypeError). -/
def OscListReceive.setValue (s : OscListReceive) (path : List String) (value : PyArg) :
    Except PyErr (OscListReceive × List String) :=
  (List.range path.length).foldlM (fun acc i =>
    match wrapD path i with
    | none => Except.error PyErr.zeroDivisionError
    | some p =>
      if p ∈ acc.1.address then
        match value with
        | PyArg.listVal vs =>
          match vs.head? with
          | none => Except.error PyErr.indexError
          | some v0 =>
            let valArg : Option PyArg :=
              if v0.isList then wrapD vs i else some (PyArg.listVal vs)
            match valArg with
            | none => Except.error PyErr.zeroDivisionError
            | some va =>
              match pyLen va with
              | Except.error e => Except.error e
              | Except.ok len =>
                if len = acc.1.num then
                  match va with
                  | PyArg.listVal l => Except.ok (acc.1.mainSetValue p l, acc.2)
                  | _ => Except.error (PyErr.typeError "setValue expects a list of floats")
                else
                  Except.ok (acc.1, acc.2 ++
                    ["Error: OscListReceive.setValue, value must be of the same length as the num attribute."])
        | _ => Except.error (PyErr.typeError "value is not subscriptable")
      else Except.ok (acc.1, acc.2 ++ ["Error: OscListReceive.setValue, Illegal address " ++ p]))
    (s, [])

/-- `OscListReceive.get`: with `all=False`, `identifier` is looked up with
`list.index` (ValueError when absent, also for `None`) and the values of the
streams in the window starting at `index*num` are returned; with `all=True`
the window of every address is returned. -/
def OscListReceive.get (s : OscListReceive) (identifier : Option String) (all : Bool) :
    Except PyErr (List PyArg ⊕ List (List PyArg)) :=
  if all then
    Except.ok (Sum.inr (s.address.map (fun a =>
      let first := s.address.indexOf a * s.num.toNat
      ((s.base_objs.drop first).take s.num.toNat).map (fun o => o.value))))
  else
    match identifier with
    | some a =>
      if a ∈ s.address then
        let first := s.address.indexOf a * s.num.toNat
        Except.ok (Sum.inl (((s.base_objs.drop first).take s.num.toNat).map (fun o => o.value)))
      else Except.error PyErr.valueError
    | none => Except.error PyErr.valueError

/-! ## OscSend -/

/-- Python-level state of an `OscSend` object: the input signal and one
C-level send stream per broadcast position, each an immutable
(port, address, host) binding. -/
structure OscSend where
  input : PyArg
  base_objs : List (Int × String × String)

/-- `OscSend.setMul`: the body is `pass`. -/
def OscSend.setMul (s : OscSend) (_x : PyArg) : OscSend :=
  s

/-- `OscSend.setAdd`: the body is `pass`. -/
def OscSend.setAdd (s : OscSend) (_x : PyArg) : OscSend :=
  s

/-- `OscSend.__dir__`: the attribute surface exposed by the object. -/
def OscSend.dirList : List String :=
  ["input"]

/-! ## OscDataSend -/

/-- One `OscDataSend_base` target: a (types, port, address, host) binding.
`tid` models Python object identity (`list.remove` compares identities of the
C objects). -/
structure DataSendTarget where
  tid : Nat
  types : String
  port : Int
  addr : String
  host : String
deriving DecidableEq, Repr

/-- Assoc-list model of a Python dict: `d[k] = v`. -/
def dictInsert (d : List (String × α)) (k : String) (v : α) : List (String × α) :=
  if d.any (fun kv => kv.1 = k) then d.map (fun kv => if kv.1 = k then (k, v) else kv)
  else d ++ [(k, v)]

/-- Assoc-list model of a Python dict: `d[k]`, `None` when absent. -/
def dictLookup (d : List (String × α)) (k : String) : Option α :=
  (d.find? (fun kv => kv.1 = k)).map Prod.snd

/-- Assoc-list model of a Python dict: `del d[k]`. -/
def dictErase (d : List (String × α)) (k : String) : List (String × α) :=
  d.filter (fun kv => kv.1 ≠ k)

/-- Python-level state of an `OscDataSend` object: `self._base_objs`,
`self._addresses`, plus the next fresh object identity. -/
structure OscDataSend where
  base_objs : List DataSendTarget
  addresses : List (String × DataSendTarget)
  nextId : Nat

/-- `OscDataSend.__init__`: builds one target per broadcast position, then maps
each address (by enumeration order) to the target at the same position. -/
def OscDataSend.init (types : List String) (port : List Int) (address host : List String) :
    Except PyErr OscDataSend :=
  let lmax := max (max types.length port.length) (max address.length host.length)
  match (List.range lmax).mapM (fun i =>
      match wrapD types i, wrapD port i, wrapD address i, wrapD host i with
      | some t, some p, some a, some h =>
          some ({ tid := i, types := t, port := p, addr := a, host := h } : DataSendTarget)
      | _, _, _, _ => none) with
  | some objs =>
      Except.ok { base_objs := objs,
                  addresses := address.enum.foldl (fun d ia =>
                    match objs.get? ia.1 with
                    | some o => dictInsert d ia.2 o
                    | none => d) [],
                  nextId := lmax }
  | none => Except.error PyErr.zeroDivisionError

/-- `OscDataSend.getAddresses`: the dict keys. -/
def OscDataSend.getAddresses (s : OscDataSend) : List String :=
  s.addresses.map Prod.fst

/-- `OscDataSend.addAddress`: builds new targets for every broadcast position,
extends `_base_objs`, and maps each new address to its target (duplicates
permitted: the dict entry is overwritten). -/
def OscDataSend.addAddress (s : OscDataSend) (types : List String) (port : List Int)
    (address host : List String) : Except PyErr (OscDataSend × List String) :=
  let lmax := max (max types.length port.length) (max address.length host.length)
  match (List.range lmax).mapM (fun i =>
      match wrapD types i, wrapD port i, wrapD address i, wrapD host i with
      | some t, some p, some a, some h =>
          some ({ tid := s.nextId + i, types := t, port := p, addr := a, host := h } :
            DataSendTarget)
      | _, _, _, _ => none) with
  | some objs =>
      Except.ok ({ base_objs := s.base_objs ++ objs,
                   addresses := address.enum.foldl (fun d ia =>
                     match objs.get? ia.1 with
                     | some o => dictInsert d ia.2 o
                     | none => d) s.addresses,
                   nextId := s.nextId + lmax }, [])
  | none => Except.error PyErr.zeroDivisionError

/-- `OscDataSend.delAddress`: per path, `self._base_objs.remove(self._addresses[p])`
(KeyError on an unknown path, ValueError when the target is not in the list)
then `del self._addresses[p]`. -/
def OscDataSend.delAddress (s : OscDataSend) (path : List String) :
    Except PyErr (OscDataSend × List String) :=
  (path.foldlM (fun (st : OscDataSend) p =>
    match dictLookup st.addresses p with
    | none => Except.error (PyErr.keyError p)
    | some obj =>
      if obj ∈ st.base_objs then
        Except.ok { st with base_objs := st.base_objs.erase obj,
                            addresses := dictErase st.addresses p }
      else Except.error PyErr.valueError) s).map (fun st => (st, []))

/-- One outgoing message handed to a target's transport. -/
structure Delivery where
  tid : Nat
  daddr : String
  msg : List PyArg

/-- Type-tag check of one value against one signature character
(`i` int32, `h` int64, `f` float32, `d` float64, `s` string). -/
def matchesType (c : Char) (v : PyArg) : Bool :=
  match c, v with
  | 'i', PyArg.intVal _ => true
  | 'h', PyArg.intVal _ => true
  | 'f', PyArg.floatVal _ => true
  | 'd', PyArg.floatVal _ => true
  | 's', PyArg.strVal _ => true
  | _, _ => false

/-- A message matches a signature when lengths agree and every value matches
its tag. -/
def validMsg (types : String) (msg : List PyArg) : Bool :=
  types.length == msg.length && (types.toList.zip msg).all (fun cv => matchesType cv.1 cv.2)

/-- Modelled from the spec: the C-level `OscDataSend_base.send` validates the
message against the target signature; a mismatch is reported and only that
single send aborted, non-fatally; a valid message is handed to the transport. -/
def baseSend (t : DataSendTarget) (msg : List PyArg) : Option Delivery × List String :=
  if validMsg t.types msg then (some { tid := t.tid, daddr := t.addr, msg := msg }, [])
  else (none, ["TypeSignatureMismatchError on target " ++ t.addr])

/-- `OscDataSend.send`: with `address=None`, `[obj.send(msg) for obj in
self._base_objs]` fans out to every target in order; with an address, only the
dict-bound target sends (KeyError on an unknown address). -/
def OscDataSend.send (s : OscDataSend) (msg : List PyArg) (address : Option String) :
    Except PyErr (List Delivery × List String) :=
  match address with
  | none =>
    let rs := s.base_objs.map (fun o => baseSend o msg)
    Except.ok (rs.filterMap Prod.fst, (rs.map Prod.snd).flatten)
  | some a =>
    match dictLookup s.addresses a with
    | some o =>
      let r := baseSend o msg
      Except.ok (r.1.toList, r.2)
    | none => Except.error (PyErr.keyError a)

/-- `OscDataSend.setMul`: the body is `pass`. -/
def OscDataSend.setMul (s : OscDataSend) (_x : PyArg) : OscDataSend :=
  s

/-- `OscDataSend.setAdd`: the body is `pass`. -/
def OscDataSend.setAdd (s : OscDataSend) (_x : PyArg) : OscDataSend :=
  s

/-- `OscDataSend.__dir__`: the attribute surface exposed by the object. -/
def OscDataSend.dirList : List String :=
  []

/-! ## OscDataReceive -/

/-- Python-level state of an `OscDataReceive` object: the bound port, the
registered addresses (`self._address`, linked with the C-level list), and the
identity of the single handler fixed at construction. -/
structure OscDataReceive where
  port : Int
  address : List String
  functionId : Nat

/-- `OscDataReceive.__init__`: rejects a non-integer port, then a non-callable
function (stderr report + `exit()`, modelled as a fatal error carrying the
report). -/
def OscDataReceive.init (port : PyArg) (address : List String) (function : PyArg) :
    Except PyErr OscDataReceive :=
  if port.isInt then
    if function.isCallable then
      Except.ok { port := port.toIntD, address := address,
                  functionId := match function with | PyArg.funcVal n => n | _ => 0 }
    else Except.error (PyErr.typeError "function argument of OscDataReceive must be callable")
  else Except.error (PyErr.typeError "port argument of OscDataReceive must be an integer")

/-- `OscDataReceive.getAddresses`. -/
def OscDataReceive.getAddresses (s : OscDataReceive) : List String :=
  s.address

/-- `OscDataReceive.addAddress`: paths already present are skipped silently;
a new path goes to the C-level handler, which appends it to the linked address
list (modelled from the spec). -/
def OscDataReceive.addAddress (s : OscDataReceive) (path : List String) :
    OscDataReceive × List String :=
  (path.foldl (fun st p =>
    if p ∈ st.address then st else { st with address := st.address ++ [p] }) s, [])

/-- `OscDataReceive.delAddress`: per path, `self._address.index(p)` (ValueError
on an unknown path) and removal by that index at the C level, which erases the
entry of the linked address list (modelled from the spec). -/
def OscDataReceive.delAddress (s : OscDataReceive) (path : List String) :
    Except PyErr (OscDataReceive × List String) :=
  (path.foldlM (fun st p =>
    if p ∈ st.address then
      Except.ok { st with address := st.address.eraseIdx (st.address.indexOf p) }
    else Except.error PyErr.valueError) s).map (fun st => (st, []))

/-! ## Well-formedness and example states -/

/-- Registry invariant of `OscReceive`: unique addresses, one stream per
address, in registration order. -/
def OscReceive.wf (s : OscReceive) : Prop :=
  s.address.Nodup ∧ s.base_objs.map (fun o => o.addr) = s.address

/-- Registry invariant of `OscListReceive`: unique addresses and, for each
address in registration order, a contiguous block of `num` streams bound to
it. -/
def OscListReceive.wf (s : OscListReceive) : Prop :=
  s.address.Nodup ∧
  s.base_objs.map (fun o => o.addr) =
    s.address.flatMap (fun a => List.replicate s.num.toNat a)

instance (s : OscReceive) : Decidable s.wf := by
  unfold OscReceive.wf
  infer_instance

instance (s : OscListReceive) : Decidable s.wf := by
  unfold OscListReceive.wf
  infer_instance

/-- A concrete scalar receiver with two registered addresses. -/
def exReceive : OscReceive :=
  { address := ["/pitch", "/amp"],
    base_objs := [mkRecvStream "/pitch" (PyArg.intVal 1) (PyArg.intVal 0),
                  mkRecvStream "/amp" (PyArg.intVal 1) (PyArg.intVal 0)] }

/-- A concrete vector receiver of width 2 with one registered address. -/
def exListReceive : OscListReceive :=
  { num := 2, address := ["/pitch"],
    base_objs := [mkListStream "/pitch" 0 (PyArg.intVal 1) (PyArg.intVal 0),
                  mkListStream "/pitch" 1 (PyArg.intVal 1) (PyArg.intVal 0)] }

/-- A concrete data sender with a float target and a string target. -/
def exTargetF : DataSendTarget :=
  { tid := 0, types := "f", port := 9900, addr := "/t0", host := "127.0.0.1" }

def exTargetS : DataSendTarget :=
  { tid := 1, types := "s", port := 9900, addr := "/t1", host := "127.0.0.1" }

def exDataSend : OscDataSend :=
  { base_objs := [exTargetF, exTargetS],
    addresses := [("/t0", exTargetF), ("/t1", exTargetS)],
    nextId := 2 }

/-- A concrete data receiver with one registered address. -/
def exDataReceive : OscDataReceive :=
  { port := 9900, address := ["/data"], functionId := 0 }

/-! ## Helper lemmas -/

theorem exceptBindOk (x : α) (f : α → Except ε β) : (Except.ok x >>= f) = f x :=
  rfl

theorem exceptBindErr (e : ε) (f : α → Except ε β) :
    ((Except.error e : Except ε α) >>= f) = Except.error e :=
  rfl

theorem exceptPure (x : α) : (pure x : Except ε α) = Except.ok x :=
  rfl

theorem exceptMapOk (f : α → β) (x : α) :
    (Except.ok x : Except ε α).map f = Except.ok (f x) :=
  rfl

theorem wrapD_singleton (x : α) (i : Nat) : wrapD [x] i = some x := by
  simp [wrapD, Nat.mod_one]

theorem isInt_intVal (n : Int) : (PyArg.intVal n).isInt = true :=
  rfl

/-! ## C10 -/

/-- C10: on `OscSend` and `OscDataSend`, `setMul(x)` and `setAdd(x)` are total
no-ops leaving every field of the object unchanged, and the objects expose no
`mul` or `add` attribute (their `__dir__` lists omit both). -/
theorem c10_sender_setMul_setAdd_noop :
    (∀ (s : OscSend) (x : PyArg), s.setMul x = s) ∧
    (∀ (s : OscSend) (x : PyArg), s.setAdd x = s) ∧
    (∀ (s : OscDataSend) (x : PyArg), s.setMul x = s) ∧
    (∀ (s : OscDataSend) (x : PyArg), s.setAdd x = s) ∧
    "mul" ∉ OscSend.dirList ∧ "add" ∉ OscSend.dirList ∧
    "mul" ∉ OscDataSend.dirList ∧ "add" ∉ OscDataSend.dirList := by
  refine ⟨fun s x => rfl, fun s x => rfl, fun s x => rfl, fun s x => rfl, ?_, ?_, ?_, ?_⟩ <;>
    decide

/-! ## C3 -/

/-- C3 counterexample: on a receiver already registering "/pitch",
`addAddress("/pitch")` neither fails nor reports anything: it returns
successfully with the state unchanged and an empty report list, refuting the
claimed reported `DuplicateAddressError` failure. -/
theorem c3_refuted :
    "/pitch" ∈ exReceive.address ∧
    OscReceive.addAddress exReceive ["/pitch"] [PyArg.intVal 1] [PyArg.intVal 0] =
      Except.ok (exReceive, []) :=
  ⟨by decide, by rfl⟩

/-- C3 (amended): on every receive-side object, `addAddress` with a path
already registered is a silent no-op: the call succeeds, the address list, the
stream objects and their order are exactly as before, and no error is raised
or reported. -/
theorem c3_addAddress_duplicate_silent_noop
    (s : OscReceive) (ls : OscListReceive) (dr : OscDataReceive) (p q r : String)
    (m a : PyArg)
    (h1 : p ∈ s.address) (h2 : q ∈ ls.address) (h3 : r ∈ dr.address) :
    OscReceive.addAddress s [p] [m] [a] = Except.ok (s, []) ∧
    OscListReceive.addAddress ls [q] [m] [a] = Except.ok (ls, []) ∧
    OscDataReceive.addAddress dr [r] = (dr, []) := by
  refine ⟨?_, ?_, ?_⟩ <;>
    simp [OscReceive.addAddress, OscListReceive.addAddress, OscDataReceive.addAddress,
      List.enum, h1, h2, h3, List.foldlM_cons, List.foldlM_nil, exceptBindOk, exceptPure,
      Except.map]

/-- C3 witness: the amended statement at a concrete duplicate registration. -/
theorem c3_amended_witness :
    OscReceive.addAddress exReceive ["/pitch"] [PyArg.intVal 1] [PyArg.intVal 0] =
      Except.ok (exReceive, []) ∧
    OscListReceive.addAddress exListReceive ["/pitch"] [PyArg.intVal 1] [PyArg.intVal 0] =
      Except.ok (exListReceive, []) ∧
    OscDataReceive.addAddress exDataReceive ["/data"] = (exDataReceive, []) :=
  c3_addAddress_duplicate_silent_noop exReceive exListReceive exDataReceive
    "/pitch" "/pitch" "/data" (PyArg.intVal 1) (PyArg.intVal 0)
    (by decide) (by decide) (by decide)

/-! ## C1 -/

/-- C1 counterexample: deleting an unregistered path is not a reported,
non-fatal no-op: on each object kind the call raises an uncaught Python
exception (ValueError from `list.index`, KeyError from the address dict). -/
theorem c1_refuted :
    "/gone" ∉ exReceive.address ∧
    OscReceive.delAddress exReceive ["/gone"] = Except.error PyErr.valueError ∧
    OscDataSend.delAddress exDataSend ["/gone"] = Except.error (PyErr.keyError "/gone") ∧
    OscListReceive.delAddress exListReceive ["/gone"] = Except.error PyErr.valueError :=
  ⟨by decide, by rfl, by rfl, by rfl⟩

/-- C1 (amended): for every receiver or sender object and every path not
registered on it, `delAddress([path])` raises an uncaught exception
(ValueError on OscReceive, OscListReceive and OscDataReceive, KeyError on
OscDataSend): the call is fatal to the caller and no UnknownAddressError is
reported; the exception is raised before any Python-level mutation, so the
registered addresses and the stream objects of the object are unchanged. -/
theorem c1_delAddress_unknown_raises
    (s : OscReceive) (ds : OscDataSend) (ls : OscListReceive) (dr : OscDataReceive)
    (p : String)
    (h1 : p ∉ s.address) (h2 : dictLookup ds.addresses p = none)
    (h3 : p ∉ ls.address) (h4 : p ∉ dr.address) :
    OscReceive.delAddress s [p] = Except.error PyErr.valueError ∧
    OscDataSend.delAddress ds [p] = Except.error (PyErr.keyError p) ∧
    OscListReceive.delAddress ls [p] = Except.error PyErr.valueError ∧
    OscDataReceive.delAddress dr [p] = Except.error PyErr.valueError := by
  refine ⟨?_, ?_, ?_, ?_⟩
  · simp [OscReceive.delAddress, List.mapM, List.mapM.loop, h1, exceptBindErr]
  · simp [OscDataSend.delAddress, List.foldlM_cons, h2, exceptBindErr, Except.map]
  · simp [OscListReceive.delAddress, List.mapM, List.mapM.loop, h3, exceptBindErr]
  · simp [OscDataReceive.delAddress, List.foldlM_cons, h4, exceptBindErr, Except.map]

/-- C1 witness: the amended statement at concrete objects and a concrete
unregistered path. -/
theorem c1_amended_witness :
    OscReceive.delAddress exReceive ["/gone"] = Except.error PyErr.valueError ∧
    OscDataSend.delAddress exDataSend ["/gone"] = Except.error (PyErr.keyError "/gone") ∧
    OscListReceive.delAddress exListReceive ["/gone"] = Except.error PyErr.valueError ∧
    OscDataReceive.delAddress exDataReceive ["/gone"] = Except.error PyErr.valueError :=
  c1_delAddress_unknown_raises exReceive exDataSend exListReceive exDataReceive "/gone"
    (by decide) (by rfl) (by decide) (by decide)

/-! ## C2 -/

/-- C2 counterexample: an empty value list has arity 0, which differs from the
width `num = 2`, yet the update is not a reported drop: the subscript
`value[0]` raises an uncaught IndexError, so the call is fatal and nothing is
reported. -/
theorem c2_refuted :
    (0 : Int) ≠ exListReceive.num ∧
    OscListReceive.setValue exListReceive ["/pitch"] (PyArg.listVal []) =
      Except.error PyErr.indexError :=
  ⟨by decide, by rfl⟩

/-- C2 (amended): for every OscListReceive with width `num`, every registered
path and every NON-EMPTY flat value list whose length differs from `num`,
`setValue` drops the update with a printed arity report and leaves the state,
hence the window returned by a subsequent `get(path)`, unchanged (an empty
value list instead raises IndexError on the `value[0]` subscript). -/
theorem c2_setValue_arity_mismatch_dropped
    (s : OscListReceive) (p : String) (v0 : PyArg) (vs : List PyArg)
    (hp : p ∈ s.address) (hflat : v0.isList = false)
    (hlen : ((v0 :: vs).length : Int) ≠ s.num) :
    OscListReceive.setValue s [p] (PyArg.listVal (v0 :: vs)) =
      Except.ok (s,
        ["Error: OscListReceive.setValue, value must be of the same length as the num attribute."]) ∧
    (∀ s2 reps,
      OscListReceive.setValue s [p] (PyArg.listVal (v0 :: vs)) = Except.ok (s2, reps) →
      OscListReceive.get s2 (some p) false = OscListReceive.get s (some p) false) := by
  have hlen2 : ¬((vs.length : Int) + 1 = s.num) := by
    intro h
    exact hlen (by push_cast [List.length_cons]; exact h)
  have hmain : OscListReceive.setValue s [p] (PyArg.listVal (v0 :: vs)) =
      Except.ok (s,
        ["Error: OscListReceive.setValue, value must be of the same length as the num attribute."]) := by
    simp [OscListReceive.setValue, List.range, List.range.loop, List.foldlM_cons,
      List.foldlM_nil, wrapD_singleton, hp, hflat, hlen2, exceptBindOk, exceptPure, pyLen]
  refine ⟨hmain, fun s2 reps h => ?_⟩
  rw [hmain] at h
  cases h
  rfl

/-- C2 witness: the amended statement at a width-2 receiver given a 1-element
message. -/
theorem c2_amended_witness :
    OscListReceive.setValue exListReceive ["/pitch"] (PyArg.listVal [PyArg.floatVal 5]) =
      Except.ok (exListReceive,
        ["Error: OscListReceive.setValue, value must be of the same length as the num attribute."]) ∧
    (∀ s2 reps,
      OscListReceive.setValue exListReceive ["/pitch"] (PyArg.listVal [PyArg.floatVal 5]) =
        Except.ok (s2, reps) →
      OscListReceive.get s2 (some "/pitch") false =
        OscListReceive.get exListReceive (some "/pitch") false) :=
  c2_setValue_arity_mismatch_dropped exListReceive "/pitch" (PyArg.floatVal 5) []
    (by decide) (by rfl) (by decide)

/-! ## C7 -/

/-- C7 counterexample: on a vector receiver with a single registered address
(valid ordinals are exactly 0), looking up ordinal 1 silently returns an empty
window: no exception, no report, an empty stream list. -/
theorem c7_refuted :
    exListReceive.address.length = 1 ∧
    OscListReceive.getitem exListReceive (PyIndex.nat 1) = Except.ok (some [], []) :=
  ⟨by decide, by rfl⟩

/-- C7 (amended): looking up an unregistered address string raises ValueError
on both receiver kinds; an ordinal at or beyond `len(_base_objs)` prints a
report and returns `None` rather than erroring; and on OscListReceive an
ordinal that is out of the valid range but below `len(_base_objs)` silently
returns a truncated (possibly empty) window, as the counterexample shows. -/
theorem c7_lookup_unknown
    (s : OscReceive) (ls : OscListReceive) (a b : String) (n m : Nat)
    (ha : a ∉ s.address) (hb : b ∉ ls.address)
    (hn : s.base_objs.length ≤ n) (hm : ls.base_objs.length ≤ m) :
    OscReceive.getitem s (PyIndex.str a) = Except.error PyErr.valueError ∧
    OscListReceive.getitem ls (PyIndex.str b) = Except.error PyErr.valueError ∧
    OscReceive.getitem s (PyIndex.nat n) = Except.ok (none, ["i too large"]) ∧
    OscListReceive.getitem ls (PyIndex.nat m) = Except.ok (none, ["i too large"]) := by
  refine ⟨?_, ?_, ?_, ?_⟩
  · simp [OscReceive.getitem, ha]
  · simp [OscListReceive.getitem, hb]
  · simp [OscReceive.getitem, Nat.not_lt.mpr hn]
  · simp [OscListReceive.getitem, Nat.not_lt.mpr hm]

/-- C7 witness: the amended statement at concrete receivers, an unknown
address and ordinals past the stream list. -/
theorem c7_amended_witness :
    OscReceive.getitem exReceive (PyIndex.str "/gone") = Except.error PyErr.valueError ∧
    OscListReceive.getitem exListReceive (PyIndex.str "/gone") =
      Except.error PyErr.valueError ∧
    OscReceive.getitem exReceive (PyIndex.nat 5) = Except.ok (none, ["i too large"]) ∧
    OscListReceive.getitem exListReceive (PyIndex.nat 7) =
      Except.ok (none, ["i too large"]) :=
  c7_lookup_unknown exReceive exListReceive "/gone" "/gone" 5 7
    (by decide) (by decide) (by decide) (by decide)

/-! ## C8 -/

/-- C8: construction of a receiver with a non-integer port (and, for
OscDataReceive, a non-callable function given an integer port; for
OscListReceive, a non-integer num given an integer port) is refused fatally:
the constructor reports the type error and produces no object instance. -/
theorem c8_construction_type_checks
    (port fnBad numBad fnAny : PyArg) (goodPort : Int) (address : List String)
    (mul addl : List PyArg)
    (hport : port.isInt = false) (hfn : fnBad.isCallable = false)
    (hnum : numBad.isInt = false) :
    OscReceive.init port address mul addl =
      Except.error (PyErr.typeError "port argument of OscReceive must be an integer") ∧
    OscDataReceive.init port address fnAny =
      Except.error (PyErr.typeError "port argument of OscDataReceive must be an integer") ∧
    OscDataReceive.init (PyArg.intVal goodPort) address fnBad =
      Except.error (PyErr.typeError "function argument of OscDataReceive must be callable") ∧
    OscListReceive.init port address numBad mul addl =
      Except.error (PyErr.typeError "port argument of OscListReceive must be an integer") ∧
    OscListReceive.init (PyArg.intVal goodPort) address numBad mul addl =
      Except.error (PyErr.typeError "num argument of OscListReceive must be an integer") := by
  refine ⟨?_, ?_, ?_, ?_, ?_⟩ <;>
    simp [OscReceive.init, OscDataReceive.init, OscListReceive.init, hport, hfn, hnum,
      isInt_intVal]

/-- C8 witness: the statement at a string port, an integer in place of the
callable, and a string num. -/
theorem c8_witness :
    OscReceive.init (PyArg.strVal "9900") ["/a"] [PyArg.intVal 1] [PyArg.intVal 0] =
      Except.error (PyErr.typeError "port argument of OscReceive must be an integer") ∧
    OscDataReceive.init (PyArg.strVal "9900") ["/a"] (PyArg.funcVal 0) =
      Except.error (PyErr.typeError "port argument of OscDataReceive must be an integer") ∧
    OscDataReceive.init (PyArg.intVal 9900) ["/a"] (PyArg.intVal 3) =
      Except.error (PyErr.typeError "function argument of OscDataReceive must be callable") ∧
    OscListReceive.init (PyArg.strVal "9900") ["/a"] (PyArg.strVal "8")
        [PyArg.intVal 1] [PyArg.intVal 0] =
      Except.error (PyErr.typeError "port argument of OscListReceive must be an integer") ∧
    OscListReceive.init (PyArg.intVal 9900) ["/a"] (PyArg.strVal "8")
        [PyArg.intVal 1] [PyArg.intVal 0] =
      Except.error (PyErr.typeError "num argument of OscListReceive must be an integer") :=
  c8_construction_type_checks (PyArg.strVal "9900") (PyArg.intVal 3) (PyArg.strVal "8")
    (PyArg.funcVal 0) 9900 ["/a"] [PyArg.intVal 1] [PyArg.intVal 0]
    (by rfl) (by rfl) (by rfl)

/-! ## C4 -/

theorem wrapD_isSome (l : List α) (h : l ≠ []) (i : Nat) : ∃ x, wrapD l i = some x := by
  have hl : l.length ≠ 0 := fun hc => h (List.length_eq_zero.mp hc)
  have hlt : i % l.length < l.length := Nat.mod_lt _ (Nat.pos_of_ne_zero hl)
  refine ⟨l.get ⟨i % l.length, hlt⟩, ?_⟩
  simp [wrapD, hl, List.get?_eq_get hlt]

theorem mainSetValue_address (s : OscReceive) (p : String) (v : PyArg) :
    (s.mainSetValue p v).address = s.address :=
  rfl

theorem mainSetValue_sets (s : OscReceive) (p : String) (v : PyArg) :
    ∀ o ∈ (s.mainSetValue p v).base_objs, o.addr = p → o.value = v := by
  intro o ho haddr
  simp only [OscReceive.mainSetValue, List.mem_map] at ho
  obtain ⟨o2, ho2, rfl⟩ := ho
  by_cases h : o2.addr = p
  · simp [h]
  · simp [h] at haddr

theorem mainSetValue_preserves (s : OscReceive) (p q : String) (v w : PyArg)
    (hq : q ≠ p) (h : ∀ o ∈ s.base_objs, o.addr = p → o.value = v) :
    ∀ o ∈ (s.mainSetValue q w).base_objs, o.addr = p → o.value = v := by
  intro o ho haddr
  simp only [OscReceive.mainSetValue, List.mem_map] at ho
  obtain ⟨o2, ho2, rfl⟩ := ho
  by_cases h2 : o2.addr = q
  · simp [h2] at haddr
    exact absurd haddr hq
  · simp [h2] at haddr ⊢
    exact h o2 ho2 haddr

/-- Reference semantics for one `setValue` loop iteration: deliver the wrapped
value when the wrapped path is registered, do nothing otherwise. -/
def OscReceive.deliverStep (path : List String) (value : List PyArg)
    (st : OscReceive) (i : Nat) : OscReceive :=
  match wrapD path i, wrapD value i with
  | some p, some v => if p ∈ st.address then st.mainSetValue p v else st
  | _, _ => st

/-- Reference semantics of the whole `setValue` call: every registered wrapped
path receives its wrapped value, unknown entries are ignored. -/
def OscReceive.deliverKnown (s : OscReceive) (path : List String) (value : List PyArg) :
    OscReceive :=
  (List.range (max path.length value.length)).foldl (OscReceive.deliverStep path value) s

/-- The reports `setValue` prints: one per loop position whose wrapped path is
unregistered. -/
def OscReceive.unknownReports (s : OscReceive) (path : List String) (value : List PyArg) :
    List String :=
  (List.range (max path.length value.length)).filterMap (fun i =>
    match wrapD path i with
    | some p =>
        if p ∈ s.address then none
        else some ("Error: OscReceive.setValue, Illegal address " ++ p)
    | none => none)

theorem deliverStep_foldl_address (path : List String) (value : List PyArg) :
    ∀ (L : List Nat) (st : OscReceive),
      (L.foldl (OscReceive.deliverStep path value) st).address = st.address := by
  intro L
  induction L with
  | nil => intro st; rfl
  | cons i L ih =>
    intro st
    rw [List.foldl_cons, ih]
    unfold OscReceive.deliverStep
    cases wrapD path i with
    | none => rfl
    | some p =>
      cases wrapD value i with
      | none => rfl
      | some v =>
        show (if p ∈ st.address then st.mainSetValue p v else st).address = st.address
        by_cases hmem : p ∈ st.address
        · rw [if_pos hmem, mainSetValue_address]
        · rw [if_neg hmem]

theorem deliverStep_foldl_preserves (path : List String) (value : List PyArg)
    (p : String) (v : PyArg) :
    ∀ (L : List Nat) (st : OscReceive),
      (∀ j ∈ L, wrapD path j ≠ some p) →
      (∀ o ∈ st.base_objs, o.addr = p → o.value = v) →
      ∀ o ∈ (L.foldl (OscReceive.deliverStep path value) st).base_objs,
        o.addr = p → o.value = v := by
  intro L
  induction L with
  | nil => intro st _ hQ; exact hQ
  | cons j L ih =>
    intro st hL hQ
    rw [List.foldl_cons]
    refine ih _ (fun k hk => hL k (List.mem_cons_of_mem _ hk)) ?_
    have hpj := hL j (List.mem_cons_self j L)
    unfold OscReceive.deliverStep
    cases hpath : wrapD path j with
    | none => exact hQ
    | some q =>
      cases hvj : wrapD value j with
      | none => exact hQ
      | some w =>
        show ∀ o ∈ (if q ∈ st.address then st.mainSetValue q w else st).base_objs,
          o.addr = p → o.value = v
        by_cases hmem : q ∈ st.address
        · rw [if_pos hmem]
          have hqp : q ≠ p := fun h => (hpath ▸ hpj) (by rw [h])
          exact mainSetValue_preserves st p q v w hqp hQ
        · rw [if_neg hmem]
          exact hQ

theorem setValue_loop_eq (s : OscReceive) (path : List String) (value : List PyArg)
    (hpath : path ≠ []) (hval : value ≠ []) :
    ∀ (L : List Nat) (st : OscReceive) (reps : List String), st.address = s.address →
      (L.foldlM (fun (acc : OscReceive × List String) i =>
          match wrapD path i with
          | none => Except.error PyErr.zeroDivisionError
          | some p =>
            if p ∈ acc.1.address then
              match wrapD value i with
              | some v => Except.ok (acc.1.mainSetValue p v, acc.2)
              | none => Except.error PyErr.zeroDivisionError
            else
              Except.ok (acc.1, acc.2 ++ ["Error: OscReceive.setValue, Illegal address " ++ p]))
        (st, reps) :
        Except PyErr (OscReceive × List String)) =
      Except.ok (L.foldl (OscReceive.deliverStep path value) st,
        reps ++ L.filterMap (fun i =>
          match wrapD path i with
          | some p =>
              if p ∈ s.address then none
              else some ("Error: OscReceive.setValue, Illegal address " ++ p)
          | none => none)) := by
  intro L
  induction L with
  | nil =>
    intro st reps _
    simp [exceptPure]
  | cons i L ih =>
    intro st reps hst
    obtain ⟨p, hp⟩ := wrapD_isSome path hpath i
    obtain ⟨v, hv⟩ := wrapD_isSome value hval i
    rw [List.foldlM_cons, List.foldl_cons, List.filterMap_cons]
    by_cases hmem : p ∈ s.address
    · have hmem2 : p ∈ st.address := hst ▸ hmem
      simp only [hp, hv, if_pos hmem2, exceptBindOk]
      rw [ih (st.mainSetValue p v) reps (by rw [mainSetValue_address, hst])]
      simp [OscReceive.deliverStep, hp, hv, if_pos hmem2, hmem]
    · have hmem2 : p ∉ st.address := fun hc => hmem (hst ▸ hc)
      simp only [hp, if_neg hmem2, exceptBindOk]
      rw [ih st (reps ++ ["Error: OscReceive.setValue, Illegal address " ++ p]) hst]
      simp [OscReceive.deliverStep, hp, hv, if_neg hmem2, hmem, List.append_assoc]

/-- C4: `OscReceive.setValue` never raises on non-empty argument lists: it
returns with the reference delivery state and one printed report per unknown
wrapped path; the address registry is untouched; and every registered path in
the list still receives its value regardless of unknown paths elsewhere (a
registered path at position `i`, not repeated later, leaves all its streams
holding its wrapped value). -/
theorem c4_setValue_unknown_nonfatal_known_delivered
    (s : OscReceive) (path : List String) (value : List PyArg)
    (hpath : path ≠ []) (hval : value ≠ []) :
    OscReceive.setValue s path value =
      Except.ok (s.deliverKnown path value, s.unknownReports path value) ∧
    (s.deliverKnown path value).address = s.address ∧
    (∀ i p, wrapD path i = some p → p ∈ s.address → i < max path.length value.length →
      (∀ j, i < j → j < max path.length value.length → wrapD path j ≠ some p) →
      ∃ v, wrapD value i = some v ∧
        ∀ o ∈ (s.deliverKnown path value).base_objs, o.addr = p → o.value = v) := by
  refine ⟨?_, deliverStep_foldl_address path value _ s, ?_⟩
  · unfold OscReceive.setValue OscReceive.deliverKnown OscReceive.unknownReports
    rw [setValue_loop_eq s path value hpath hval (List.range (max path.length value.length))
      s [] rfl]
    rw [List.nil_append]
  · intro i p hp hmem hi hlater
    obtain ⟨v, hv⟩ := wrapD_isSome value hval i
    refine ⟨v, hv, ?_⟩
    unfold OscReceive.deliverKnown
    have hsplit : max path.length value.length = (i + 1) + (max path.length value.length - (i + 1)) := by
      omega
    rw [hsplit, List.range_add, List.foldl_append, List.range_succ, List.foldl_append]
    set st1 := (List.range i).foldl (OscReceive.deliverStep path value) s with hst1
    have haddr1 : st1.address = s.address := deliverStep_foldl_address path value _ s
    have hstep : [i].foldl (OscReceive.deliverStep path value) st1 = st1.mainSetValue p v := by
      simp [OscReceive.deliverStep, hp, hv, haddr1 ▸ hmem]
    rw [hstep]
    refine deliverStep_foldl_preserves path value p v _ _ ?_ (mainSetValue_sets st1 p v)
    intro j hj
    simp only [List.mem_map, List.mem_range] at hj
    obtain ⟨t, ht, rfl⟩ := hj
    exact hlater (i + 1 + t) (by omega) (by omega)

/-- C4 witness: the statement at a concrete receiver, a path list mixing a
registered and an unknown path, and a two-value list. -/
theorem c4_witness :
    OscReceive.setValue exReceive ["/pitch", "/bad"] [PyArg.floatVal 9, PyArg.floatVal 8] =
      Except.ok (exReceive.deliverKnown ["/pitch", "/bad"] [PyArg.floatVal 9, PyArg.floatVal 8],
        exReceive.unknownReports ["/pitch", "/bad"] [PyArg.floatVal 9, PyArg.floatVal 8]) ∧
    (exReceive.deliverKnown ["/pitch", "/bad"] [PyArg.floatVal 9, PyArg.floatVal 8]).address =
      exReceive.address ∧
    (∀ i p, wrapD ["/pitch", "/bad"] i = some p → p ∈ exReceive.address →
      i < max (["/pitch", "/bad"] : List String).length
            ([PyArg.floatVal 9, PyArg.floatVal 8] : List PyArg).length →
      (∀ j, i < j →
        j < max (["/pitch", "/bad"] : List String).length
              ([PyArg.floatVal 9, PyArg.floatVal 8] : List PyArg).length →
        wrapD ["/pitch", "/bad"] j ≠ some p) →
      ∃ v, wrapD [PyArg.floatVal 9, PyArg.floatVal 8] i = some v ∧
        ∀ o ∈ (exReceive.deliverKnown ["/pitch", "/bad"]
            [PyArg.floatVal 9, PyArg.floatVal 8]).base_objs,
          o.addr = p → o.value = v) :=
  c4_setValue_unknown_nonfatal_known_delivered exReceive ["/pitch", "/bad"]
    [PyArg.floatVal 9, PyArg.floatVal 8] (by decide) (fun h => by cases h)
/-! ## C5 -/

theorem countP_filterMap_baseSend (msg : List PyArg) (k : Nat) :
    ∀ l : List DataSendTarget,
      (l.filterMap (fun o => (baseSend o msg).1)).countP (fun d => d.tid == k) =
      l.countP (fun o => o.tid == k && validMsg o.types msg) := by
  intro l
  induction l with
  | nil => rfl
  | cons o l ih =>
    by_cases hv : validMsg o.types msg
    · have h1 : (baseSend o msg).1 = some { tid := o.tid, daddr := o.addr, msg := msg } := by
        unfold baseSend
        rw [if_pos hv]
      simp only [List.filterMap_cons, h1, List.countP_cons, ih]
      simp [hv]
    · have h1 : (baseSend o msg).1 = none := by
        unfold baseSend
        rw [if_neg hv]
      simp only [List.filterMap_cons, h1, List.countP_cons, ih]
      simp [hv]

theorem countP_nodup_tid (msg : List PyArg) :
    ∀ l : List DataSendTarget, (l.map (fun o => o.tid)).Nodup →
      ∀ o ∈ l, l.countP (fun o2 => o2.tid == o.tid && validMsg o2.types msg) =
        if validMsg o.types msg then 1 else 0 := by
  intro l
  induction l with
  | nil =>
    intro _ o ho
    cases ho
  | cons a l ih =>
    intro hnd o ho
    rw [List.map_cons, List.nodup_cons] at hnd
    rcases List.mem_cons.mp ho with rfl | ho2
    · have hrest : l.countP (fun o2 => o2.tid == o.tid && validMsg o2.types msg) = 0 := by
        rw [List.countP_eq_zero]
        intro o2 ho2
        simp only [Bool.and_eq_true, beq_iff_eq, not_and]
        intro htid _
        exact hnd.1 (htid ▸ List.mem_map_of_mem (fun o3 => o3.tid) ho2)
      rw [List.countP_cons, hrest]
      by_cases hv : validMsg o.types msg <;> simp [hv]
    · have ha : ¬((a.tid == o.tid && validMsg a.types msg) = true) := by
        simp only [Bool.and_eq_true, beq_iff_eq, not_and]
        intro htid _
        exact hnd.1 (htid ▸ List.mem_map_of_mem (fun o3 => o3.tid) ho2)
      rw [List.countP_cons, ih hnd.2 o ho2, if_neg ha]
      simp

theorem mem_filterMap_baseSend_msg (msg : List PyArg) (l : List DataSendTarget) :
    ∀ d ∈ l.filterMap (fun o => (baseSend o msg).1), d.msg = msg := by
  intro d hd
  rw [List.mem_filterMap] at hd
  obtain ⟨o, _, ho⟩ := hd
  unfold baseSend at ho
  by_cases hv : validMsg o.types msg
  · rw [if_pos hv] at ho
    cases ho
    rfl
  · rw [if_neg hv] at ho
    cases ho

/-- C5: with `address=None`, `OscDataSend.send` fans out without raising: every
registered target whose signature matches the message receives it exactly once
(with distinct target identities), every mismatching target contributes its own
report without stopping the remaining sends; with a registered `address=a`,
only the target bound to `a` receives the message. -/
theorem c5_dataSend_fanout_independent
    (s : OscDataSend) (msg : List PyArg) (a : String) (t : DataSendTarget)
    (hnodup : (s.base_objs.map (fun o => o.tid)).Nodup)
    (ha : dictLookup s.addresses a = some t) :
    (∃ ds reps, OscDataSend.send s msg none = Except.ok (ds, reps)) ∧
    (∀ ds reps, OscDataSend.send s msg none = Except.ok (ds, reps) →
      ∀ o ∈ s.base_objs,
        (validMsg o.types msg = true →
          ds.countP (fun d => d.tid == o.tid) = 1 ∧ ∀ d ∈ ds, d.msg = msg) ∧
        (validMsg o.types msg = false →
          ds.countP (fun d => d.tid == o.tid) = 0 ∧
          ("TypeSignatureMismatchError on target " ++ o.addr) ∈ reps)) ∧
    (∃ ds reps, OscDataSend.send s msg (some a) = Except.ok (ds, reps) ∧
      ∀ d ∈ ds, d.tid = t.tid ∧ d.daddr = t.addr ∧ d.msg = msg) := by
  refine ⟨⟨_, _, rfl⟩, ?_, ?_⟩
  · intro ds reps h o ho
    unfold OscDataSend.send at h
    rw [Except.ok.injEq, Prod.mk.injEq] at h
    obtain ⟨hds, hreps⟩ := h
    have hds2 : s.base_objs.filterMap (fun o => (baseSend o msg).1) = ds := by
      rw [← hds, List.filterMap_map]
      rfl
    have hreps2 : (s.base_objs.map (fun o => (baseSend o msg).2)).flatten = reps := by
      rw [← hreps, List.map_map]
      rfl
    constructor
    · intro hv
      refine ⟨?_, ?_⟩
      · rw [← hds2, countP_filterMap_baseSend msg o.tid s.base_objs,
          countP_nodup_tid msg s.base_objs hnodup o ho, if_pos hv]
      · intro d hd
        rw [← hds2] at hd
        exact mem_filterMap_baseSend_msg msg s.base_objs d hd
    · intro hv
      refine ⟨?_, ?_⟩
      · rw [← hds2, countP_filterMap_baseSend msg o.tid s.base_objs,
          countP_nodup_tid msg s.base_objs hnodup o ho, if_neg (by simp [hv])]
      · rw [← hreps2]
        refine List.mem_flatten.mpr ⟨(baseSend o msg).2, ?_, ?_⟩
        · exact List.mem_map_of_mem (fun o => (baseSend o msg).2) ho
        · unfold baseSend
          rw [if_neg (by simp [hv])]
          exact List.mem_singleton.mpr rfl
  · refine ⟨(baseSend t msg).1.toList, (baseSend t msg).2, ?_, ?_⟩
    · show (match dictLookup s.addresses a with
        | some o => Except.ok ((baseSend o msg).1.toList, (baseSend o msg).2)
        | none => Except.error (PyErr.keyError a)) =
        Except.ok ((baseSend t msg).1.toList, (baseSend t msg).2)
      rw [ha]
    · intro d hd
      unfold baseSend at hd
      by_cases hv : validMsg t.types msg
      · rw [if_pos hv] at hd
        rcases List.mem_singleton.mp (by simpa using hd) with rfl
        exact ⟨rfl, rfl, rfl⟩
      · rw [if_neg hv] at hd
        simp at hd

/-- C5 witness: a broadcast on a concrete sender with one matching and one
mismatching target completes without raising. -/
theorem c5_witness :
    ∃ ds reps, OscDataSend.send exDataSend [PyArg.floatVal 7] none = Except.ok (ds, reps) :=
  (c5_dataSend_fanout_independent exDataSend [PyArg.floatVal 7] "/t0" exTargetF
    (by decide) (by rfl)).1

/-! ## C6 -/

theorem length_flatMap_replicate (n : Nat) :
    ∀ l : List String, (l.flatMap (fun a => List.replicate n a)).length = n * l.length := by
  intro l
  induction l with
  | nil => simp
  | cons a l ih =>
    simp only [List.flatMap_cons, List.length_append, List.length_replicate, ih,
      List.length_cons]
    ring

theorem flatMap_replicate_slice (n : Nat) :
    ∀ (l : List String) (k : Nat) (hk : k < l.length),
      ((l.flatMap (fun a => List.replicate n a)).drop (k * n)).take n =
        List.replicate n (l.get ⟨k, hk⟩) := by
  intro l
  induction l with
  | nil =>
    intro k hk
    cases hk
  | cons a l ih =>
    intro k hk
    cases k with
    | zero =>
      simp only [List.flatMap_cons, Nat.zero_mul, List.drop_zero, List.get]
      exact List.take_left' (List.length_replicate n a)
    | succ k =>
      simp only [List.flatMap_cons, List.get_cons_succ]
      rw [show (k + 1) * n = (List.replicate n a).length + k * n by
        simp [Nat.succ_mul, Nat.add_comm]]
      rw [List.drop_append]
      exact ih k (Nat.lt_of_succ_lt_succ hk)

/-- C6: in a well-formed OscListReceive of width `num ≥ 1`, for the address `A`
at insertion position `k`, indexing by `A` returns exactly the `num` streams
occupying flat positions `k*num … k*num+num-1` (all bound to `A`), indexing by
ordinal `k` returns the same window, and `get(A)` returns the `num` values of
those streams in order. -/
theorem c6_listReceive_window_access
    (s : OscListReceive) (k : Nat) (hwf : s.wf) (hnum : 1 ≤ s.num)
    (hk : k < s.address.length) :
    ∃ win, win = (s.base_objs.drop (k * s.num.toNat)).take s.num.toNat ∧
      OscListReceive.getitem s (PyIndex.str (s.address.get ⟨k, hk⟩)) =
        Except.ok (some win, []) ∧
      OscListReceive.getitem s (PyIndex.nat k) = Except.ok (some win, []) ∧
      win.length = s.num.toNat ∧
      (∀ o ∈ win, o.addr = s.address.get ⟨k, hk⟩) ∧
      OscListReceive.get s (some (s.address.get ⟨k, hk⟩)) false =
        Except.ok (Sum.inl (win.map (fun o => o.value))) := by
  obtain ⟨hnd, hmap⟩ := hwf
  have hn : 1 ≤ s.num.toNat := by omega
  have hobjs : s.base_objs.length = s.num.toNat * s.address.length := by
    have := congrArg List.length hmap
    rwa [List.length_map, length_flatMap_replicate] at this
  have hidx : s.address.indexOf (s.address.get ⟨k, hk⟩) = k := by
    rw [List.get_eq_getElem]
    exact List.indexOf_getElem hnd k hk
  have hmem : s.address.get ⟨k, hk⟩ ∈ s.address := s.address.get_mem k hk
  have hkobjs : k < s.base_objs.length := by
    rw [hobjs]
    exact Nat.lt_of_lt_of_le hk (Nat.le_mul_of_pos_left _ hn)
  refine ⟨(s.base_objs.drop (k * s.num.toNat)).take s.num.toNat, rfl, ?_, ?_, ?_, ?_, ?_⟩
  · show (if s.address.get ⟨k, hk⟩ ∈ s.address then _ else _) = _
    rw [if_pos hmem, hidx]
  · show (if k < s.base_objs.length then _ else _) = _
    rw [if_pos hkobjs]
  · rw [List.length_take, List.length_drop, hobjs]
    have : k * s.num.toNat + s.num.toNat ≤ s.num.toNat * s.address.length := by
      have h1 : (k + 1) * s.num.toNat ≤ s.address.length * s.num.toNat :=
        Nat.mul_le_mul_right _ hk
      calc k * s.num.toNat + s.num.toNat = (k + 1) * s.num.toNat := by ring
        _ ≤ s.address.length * s.num.toNat := h1
        _ = s.num.toNat * s.address.length := Nat.mul_comm _ _
    omega
  · intro o ho
    have hoaddr : o.addr ∈ ((s.base_objs.map (fun o2 => o2.addr)).drop
        (k * s.num.toNat)).take s.num.toNat := by
      rw [← List.map_drop, ← List.map_take]
      exact List.mem_map_of_mem _ ho
    rw [hmap, flatMap_replicate_slice s.num.toNat s.address k hk] at hoaddr
    exact List.eq_of_mem_replicate hoaddr
  · show (if s.address.get ⟨k, hk⟩ ∈ s.address then _ else _) = _
    rw [if_pos hmem, hidx]

/-- C6 witness: the statement at a concrete width-2 receiver and position 0. -/
theorem c6_witness :
    ∃ win, win =
        (exListReceive.base_objs.drop (0 * exListReceive.num.toNat)).take
          exListReceive.num.toNat ∧
      OscListReceive.getitem exListReceive
          (PyIndex.str (exListReceive.address.get ⟨0, by decide⟩)) =
        Except.ok (some win, []) ∧
      OscListReceive.getitem exListReceive (PyIndex.nat 0) = Except.ok (some win, []) ∧
      win.length = exListReceive.num.toNat ∧
      (∀ o ∈ win, o.addr = exListReceive.address.get ⟨0, by decide⟩) ∧
      OscListReceive.get exListReceive (some (exListReceive.address.get ⟨0, by decide⟩))
          false =
        Except.ok (Sum.inl (win.map (fun o => o.value))) :=
  c6_listReceive_window_access exListReceive 0 (by constructor <;> decide) (by decide)
    (by decide)

/-! ## C9 -/

/-- One administrative call with a single path, as the claim ranges over
sequences of `addAddress`/`delAddress` calls. -/
inductive RegOp where
  | addOp : String → PyArg → PyArg → RegOp
  | delOp : String → RegOp

def OscReceive.applyOp (s : OscReceive) (op : RegOp) : Except PyErr OscReceive :=
  match op with
  | RegOp.addOp p m a => (s.addAddress [p] [m] [a]).map Prod.fst
  | RegOp.delOp p => (s.delAddress [p]).map Prod.fst

def OscReceive.applyOps (s : OscReceive) (ops : List RegOp) : Except PyErr OscReceive :=
  ops.foldlM OscReceive.applyOp s

def OscListReceive.applyOp (s : OscListReceive) (op : RegOp) : Except PyErr OscListReceive :=
  match op with
  | RegOp.addOp p m a => (s.addAddress [p] [m] [a]).map Prod.fst
  | RegOp.delOp p => (s.delAddress [p]).map Prod.fst

def OscListReceive.applyOps (s : OscListReceive) (ops : List RegOp) :
    Except PyErr OscListReceive :=
  ops.foldlM OscListReceive.applyOp s

theorem popAt_lt (l : List α) (i : Nat) (h : i < l.length) :
    popAt l i = Except.ok (l.get ⟨i, h⟩, l.eraseIdx i) := by
  simp [popAt, List.getElem?_eq_getElem h, List.get_eq_getElem]

theorem map_eraseIdx (f : α → β) :
    ∀ (l : List α) (i : Nat), (l.eraseIdx i).map f = (l.map f).eraseIdx i := by
  intro l
  induction l with
  | nil => intro i; rfl
  | cons a l ih =>
    intro i
    cases i with
    | zero => rfl
    | succ i => simp [List.eraseIdx_cons_succ, ih]

theorem oscReceive_addAddress_single (s : OscReceive) (p : String) (m a : PyArg) :
    s.addAddress [p] [m] [a] =
      Except.ok (if p ∈ s.address then s
        else { address := s.address ++ [p],
               base_objs := s.base_objs ++ [mkRecvStream p m a] }, []) := by
  by_cases h : p ∈ s.address <;>
    simp [OscReceive.addAddress, List.enum, List.enumFrom, h, wrapD_singleton, exceptPure,
      Except.map, List.foldlM_cons, List.foldlM_nil, exceptBindOk]

theorem oscListReceive_addAddress_single (s : OscListReceive) (p : String) (m a : PyArg) :
    s.addAddress [p] [m] [a] =
      Except.ok (if p ∈ s.address then s
        else { num := s.num, address := s.address ++ [p],
               base_objs := s.base_objs ++
                 (List.range s.num.toNat).map (fun j => mkListStream p j m a) }, []) := by
  by_cases h : p ∈ s.address <;>
    simp [OscListReceive.addAddress, List.enum, List.enumFrom, h, wrapD_singleton, exceptPure,
      Except.map, List.foldlM_cons, List.foldlM_nil, exceptBindOk]

theorem oscReceive_delAddress_single (s : OscReceive) (p : String)
    (hp : p ∈ s.address) (hlen : s.base_objs.length = s.address.length) :
    s.delAddress [p] =
      Except.ok ({ address := s.address.eraseIdx (s.address.indexOf p),
                   base_objs := s.base_objs.eraseIdx (s.address.indexOf p) }, []) := by
  have hidx : s.address.indexOf p < s.address.length := List.indexOf_lt_length.mpr hp
  have hidx2 : s.address.indexOf p < s.base_objs.length := by
    rw [hlen]
    exact hidx
  simp [OscReceive.delAddress, List.mapM, List.mapM.loop, hp, exceptBindOk, exceptPure,
    List.foldlM_cons, List.foldlM_nil, popAt_lt _ _ hidx, popAt_lt _ _ hidx2]

theorem popBlock (first : Nat) :
    ∀ (n : Nat) (objs : List ListRecvStream), first + n ≤ objs.length →
      ((List.range n).foldlM (fun objs2 j =>
          (popAt objs2 (first + (n - 1 - j))).map Prod.snd) objs :
        Except PyErr (List ListRecvStream)) =
      Except.ok (objs.take first ++ objs.drop (first + n)) := by
  intro n
  induction n with
  | zero =>
    intro objs _
    simp only [List.range_zero, List.foldlM_nil, Nat.add_zero, List.take_append_drop]
    rfl
  | succ n ih =>
    intro objs h
    have hlt : first + n < objs.length := by omega
    rw [List.range_succ_eq_map, List.foldlM_cons]
    have hpop : (popAt objs (first + (n + 1 - 1 - 0))).map Prod.snd =
        Except.ok (objs.eraseIdx (first + n)) := by
      rw [show first + (n + 1 - 1 - 0) = first + n by omega, popAt_lt _ _ hlt]
      rfl
    rw [hpop, exceptBindOk, List.foldlM_map]
    have hform : ∀ (o2 : List ListRecvStream) (j : Nat),
        (popAt o2 (first + (n + 1 - 1 - Nat.succ j))).map Prod.snd =
        (popAt o2 (first + (n - 1 - j))).map Prod.snd := by
      intro o2 j
      congr 2
      omega
    rw [funext fun o2 => funext fun j => hform o2 j]
    rw [ih (objs.eraseIdx (first + n)) (by rw [List.length_eraseIdx_of_lt hlt]; omega)]
    have hlen1 : (objs.take (first + n)).length = first + n := by
      rw [List.length_take]
      omega
    have e1 : (objs.eraseIdx (first + n)).take first = objs.take first := by
      rw [List.eraseIdx_eq_take_drop_succ, List.take_append_eq_append_take, hlen1,
        show first - (first + n) = 0 by omega, List.take_zero, List.append_nil,
        List.take_take, show min first (first + n) = first by omega]
    have e2 : (objs.eraseIdx (first + n)).drop (first + n) = objs.drop (first + (n + 1)) := by
      rw [List.eraseIdx_eq_take_drop_succ, List.drop_append_eq_append_drop, hlen1,
        show first + n - (first + n) = 0 by omega, List.drop_zero,
        List.drop_of_length_le (le_of_eq hlen1), List.nil_append,
        show first + n + 1 = first + (n + 1) by omega]
    rw [e1, e2]

theorem oscListReceive_delAddress_single (s : OscListReceive) (p : String)
    (hp : p ∈ s.address)
    (hlen : s.base_objs.length = s.num.toNat * s.address.length) :
    s.delAddress [p] =
      Except.ok ({ num := s.num,
                   address := s.address.eraseIdx (s.address.indexOf p),
                   base_objs :=
                     s.base_objs.take (s.address.indexOf p * s.num.toNat) ++
                       s.base_objs.drop
                         (s.address.indexOf p * s.num.toNat + s.num.toNat) }, []) := by
  have hidx : s.address.indexOf p < s.address.length := List.indexOf_lt_length.mpr hp
  have hblock : s.address.indexOf p * s.num.toNat + s.num.toNat ≤ s.base_objs.length := by
    rw [hlen]
    calc s.address.indexOf p * s.num.toNat + s.num.toNat
        = (s.address.indexOf p + 1) * s.num.toNat := by ring
      _ ≤ s.address.length * s.num.toNat := Nat.mul_le_mul_right _ hidx
      _ = s.num.toNat * s.address.length := Nat.mul_comm _ _
  simp [OscListReceive.delAddress, List.mapM, List.mapM.loop, hp, exceptBindOk, exceptPure,
    List.foldlM_cons, List.foldlM_nil, popAt_lt _ _ hidx,
    popBlock (s.address.indexOf p * s.num.toNat) s.num.toNat s.base_objs hblock]

theorem flatMap_replicate_remove (n : Nat) :
    ∀ (l : List String) (k : Nat), k < l.length →
      (l.flatMap (fun a => List.replicate n a)).take (k * n) ++
        (l.flatMap (fun a => List.replicate n a)).drop (k * n + n) =
      (l.eraseIdx k).flatMap (fun a => List.replicate n a) := by
  intro l
  induction l with
  | nil =>
    intro k hk
    cases hk
  | cons a l ih =>
    intro k hk
    cases k with
    | zero =>
      simp only [List.flatMap_cons, Nat.zero_mul, List.take_zero, List.nil_append,
        Nat.zero_add, List.eraseIdx_cons_zero]
      exact List.drop_left' (List.length_replicate n a)
    | succ k =>
      have hrep : (List.replicate n a).length = n := List.length_replicate n a
      simp only [List.flatMap_cons, List.eraseIdx_cons_succ]
      rw [show (k + 1) * n = k * n + n from Nat.succ_mul k n]
      rw [List.take_append_eq_append_take, List.drop_append_eq_append_drop, hrep]
      rw [List.take_of_length_le (by omega), List.drop_of_length_le (by omega)]
      rw [show k * n + n - n = k * n by omega, show k * n + n + n - n = k * n + n by omega]
      rw [List.nil_append, List.append_assoc]
      rw [ih k (Nat.lt_of_succ_lt_succ hk)]

theorem oscReceive_applyOp_wf (s : OscReceive) (op : RegOp) (hwf : s.wf) :
    ∀ s2, s.applyOp op = Except.ok s2 → s2.wf := by
  intro s2 h
  cases op with
  | addOp p m a =>
    rw [OscReceive.applyOp, oscReceive_addAddress_single, exceptMapOk] at h
    cases h
    by_cases hp : p ∈ s.address
    · rwa [if_pos hp]
    · rw [if_neg hp]
      obtain ⟨hnd, hmap⟩ := hwf
      refine ⟨?_, ?_⟩
      · rw [List.nodup_append]
        refine ⟨hnd, List.nodup_singleton p, ?_⟩
        intro x hx hmem
        rw [List.mem_singleton] at hmem
        exact hp (hmem ▸ hx)
      · simp [List.map_append, hmap, mkRecvStream]
  | delOp p =>
    rw [OscReceive.applyOp] at h
    by_cases hp : p ∈ s.address
    · have hlen : s.base_objs.length = s.address.length := by
        have := congrArg List.length hwf.2
        rwa [List.length_map] at this
      rw [oscReceive_delAddress_single s p hp hlen, exceptMapOk] at h
      cases h
      obtain ⟨hnd, hmap⟩ := hwf
      refine ⟨(List.eraseIdx_sublist s.address (s.address.indexOf p)).nodup hnd, ?_⟩
      rw [map_eraseIdx, hmap]
    · have herr : s.delAddress [p] = Except.error PyErr.valueError := by
        simp [OscReceive.delAddress, List.mapM, List.mapM.loop, hp, exceptBindErr]
      rw [herr] at h
      simp [Except.map] at h

theorem oscListReceive_applyOp_wf (s : OscListReceive) (op : RegOp) (hwf : s.wf) :
    ∀ s2, s.applyOp op = Except.ok s2 → s2.wf ∧ s2.num = s.num := by
  intro s2 h
  cases op with
  | addOp p m a =>
    rw [OscListReceive.applyOp, oscListReceive_addAddress_single, exceptMapOk] at h
    cases h
    by_cases hp : p ∈ s.address
    · rw [if_pos hp]
      exact ⟨hwf, rfl⟩
    · rw [if_neg hp]
      obtain ⟨hnd, hmap⟩ := hwf
      refine ⟨⟨?_, ?_⟩, rfl⟩
      · rw [List.nodup_append]
        refine ⟨hnd, List.nodup_singleton p, ?_⟩
        intro x hx hmem
        rw [List.mem_singleton] at hmem
        exact hp (hmem ▸ hx)
      · rw [List.map_append, hmap, List.flatMap_append]
        congr 1
        rw [List.map_map]
        have hc : ((fun (o : ListRecvStream) => o.addr) ∘ fun j => mkListStream p j m a) =
            fun (j : Nat) => p := rfl
        rw [hc, List.map_const', List.length_range]
        simp [List.flatMap_cons]
  | delOp p =>
    rw [OscListReceive.applyOp] at h
    by_cases hp : p ∈ s.address
    · have hlen : s.base_objs.length = s.num.toNat * s.address.length := by
        have := congrArg List.length hwf.2
        rwa [List.length_map, length_flatMap_replicate] at this
      rw [oscListReceive_delAddress_single s p hp hlen, exceptMapOk] at h
      cases h
      obtain ⟨hnd, hmap⟩ := hwf
      have hidx : s.address.indexOf p < s.address.length := List.indexOf_lt_length.mpr hp
      refine ⟨⟨(List.eraseIdx_sublist s.address (s.address.indexOf p)).nodup hnd, ?_⟩, rfl⟩
      rw [List.map_append, List.map_take, List.map_drop, hmap]
      exact flatMap_replicate_remove s.num.toNat s.address (s.address.indexOf p) hidx
    · have herr : s.delAddress [p] = Except.error PyErr.valueError := by
        simp [OscListReceive.delAddress, List.mapM, List.mapM.loop, hp, exceptBindErr]
      rw [herr] at h
      simp [Except.map] at h

theorem oscReceive_applyOps_wf (ops : List RegOp) :
    ∀ s s2 : OscReceive, s.wf → s.applyOps ops = Except.ok s2 → s2.wf := by
  induction ops with
  | nil =>
    intro s s2 hwf h
    rw [OscReceive.applyOps, List.foldlM_nil] at h
    cases h
    exact hwf
  | cons op ops ih =>
    intro s s2 hwf h
    rw [OscReceive.applyOps, List.foldlM_cons] at h
    cases hop : s.applyOp op with
    | error e =>
      rw [hop, exceptBindErr] at h
      cases h
    | ok s1 =>
      rw [hop, exceptBindOk] at h
      exact ih s1 s2 (oscReceive_applyOp_wf s op hwf s1 hop) h

theorem oscListReceive_applyOps_wf (ops : List RegOp) :
    ∀ s s2 : OscListReceive, s.wf → s.applyOps ops = Except.ok s2 →
      s2.wf ∧ s2.num = s.num := by
  induction ops with
  | nil =>
    intro s s2 hwf h
    rw [OscListReceive.applyOps, List.foldlM_nil] at h
    cases h
    exact ⟨hwf, rfl⟩
  | cons op ops ih =>
    intro s s2 hwf h
    rw [OscListReceive.applyOps, List.foldlM_cons] at h
    cases hop : s.applyOp op with
    | error e =>
      rw [hop, exceptBindErr] at h
      cases h
    | ok s1 =>
      rw [hop, exceptBindOk] at h
      obtain ⟨hw1, hn1⟩ := oscListReceive_applyOp_wf s op hwf s1 hop
      obtain ⟨hw2, hn2⟩ := ih s1 s2 hw1 h
      exact ⟨hw2, hn2.trans hn1⟩

/-- C9: any completed sequence of single-path addAddress/delAddress calls on a
well-formed receiver preserves the registry invariant: the stream-object count
equals the address count for OscReceive and the address count times `num` for
OscListReceive (whose width never changes), with each address owning the
contiguous stream block at its insertion position; and deleting any registered
path succeeds and leaves the remaining addresses in their original relative
order. -/
theorem c9_registry_invariant
    (ops : List RegOp) (s s2 : OscReceive) (ls ls2 : OscListReceive)
    (hs : s.wf) (hls : ls.wf)
    (h1 : s.applyOps ops = Except.ok s2)
    (h2 : ls.applyOps ops = Except.ok ls2) :
    s2.wf ∧ s2.base_objs.length = s2.address.length ∧
    ls2.wf ∧ ls2.num = ls.num ∧
    ls2.base_objs.length = ls2.num.toNat * ls2.address.length ∧
    (∀ p, p ∈ s2.address →
      ∃ r, s2.delAddress [p] = Except.ok r ∧
        r.1.address = s2.address.eraseIdx (s2.address.indexOf p)) ∧
    (∀ p, p ∈ ls2.address →
      ∃ r, ls2.delAddress [p] = Except.ok r ∧
        r.1.address = ls2.address.eraseIdx (ls2.address.indexOf p)) := by
  have hw2 := oscReceive_applyOps_wf ops s s2 hs h1
  have hlw2 := oscListReceive_applyOps_wf ops ls ls2 hls h2
  have hlen2 : s2.base_objs.length = s2.address.length := by
    have := congrArg List.length hw2.2
    rwa [List.length_map] at this
  have hllen2 : ls2.base_objs.length = ls2.num.toNat * ls2.address.length := by
    have := congrArg List.length hlw2.1.2
    rwa [List.length_map, length_flatMap_replicate] at this
  refine ⟨hw2, hlen2, hlw2.1, hlw2.2, hllen2, ?_, ?_⟩
  · intro p hp
    exact ⟨_, oscReceive_delAddress_single s2 p hp hlen2, rfl⟩
  · intro p hp
    exact ⟨_, oscListReceive_delAddress_single ls2 p hp hllen2, rfl⟩

/-- A concrete administrative sequence: register "/b", then delete "/pitch". -/
def exOps : List RegOp :=
  [RegOp.addOp "/b" (PyArg.intVal 1) (PyArg.intVal 0), RegOp.delOp "/pitch"]

/-- The scalar receiver after running `exOps` on `exReceive`. -/
def exReceive2 : OscReceive :=
  { address := ["/amp", "/b"],
    base_objs := [mkRecvStream "/amp" (PyArg.intVal 1) (PyArg.intVal 0),
                  mkRecvStream "/b" (PyArg.intVal 1) (PyArg.intVal 0)] }

/-- The vector receiver after running `exOps` on `exListReceive`. -/
def exListReceive2 : OscListReceive :=
  { num := 2, address := ["/b"],
    base_objs := [mkListStream "/b" 0 (PyArg.intVal 1) (PyArg.intVal 0),
                  mkListStream "/b" 1 (PyArg.intVal 1) (PyArg.intVal 0)] }

/-- C9 witness: the statement at a concrete run of add-then-delete on both
receiver kinds. -/
theorem c9_witness :
    exReceive2.wf ∧ exReceive2.base_objs.length = exReceive2.address.length ∧
    exListReceive2.wf ∧ exListReceive2.num = exListReceive.num ∧
    exListReceive2.base_objs.length =
      exListReceive2.num.toNat * exListReceive2.address.length ∧
    (∀ p, p ∈ exReceive2.address →
      ∃ r, exReceive2.delAddress [p] = Except.ok r ∧
        r.1.address = exReceive2.address.eraseIdx (exReceive2.address.indexOf p)) ∧
    (∀ p, p ∈ exListReceive2.address →
      ∃ r, exListReceive2.delAddress [p] = Except.ok r ∧
        r.1.address = exListReceive2.address.eraseIdx (exListReceive2.address.indexOf p)) :=
  c9_registry_invariant exOps exReceive exReceive2 exListReceive exListReceive2
    (by constructor <;> decide) (by constructor <;> decide) (by rfl) (by rfl)
